import Mathlib

/-!
Shallow embedding of the GAN training notebook
(`GAN_PyTorch_HandsOn_Final.ipynb`).

Tensors are lists of rows of real numbers; the generator and the
discriminator are the fixed layer stacks of the notebook; randomness
(noise, dropout masks) is passed in explicitly; the autograd graph is
tracked by a set of parameter owners attached to each tensor; the
training loop is a state machine over an explicit record.
-/

namespace GanIntro

noncomputable section

/-- A 2-D tensor: a batch of rows over the reals. -/
abbrev Tensor2 := List (List ℝ)

-- Hyperparameters fixed in the notebook ("Set your parameters" cell).
def batch_size : ℕ := 128

def z_dim : ℕ := 64

def display_step : ℕ := 100

def num_epochs : ℕ := 51

def img_dim : ℕ := 28 * 28

def hidden_dim : ℕ := 128

/-- Dot product of two rows (`torch` linear layer inner product). -/
def dot (w x : List ℝ) : ℝ := (List.zipWith (· * ·) w x).sum

/-- Parameters of an `nn.Linear(in_dim, out_dim)` layer: `weight` has
`out_dim` rows of length `in_dim`, `bias` has length `out_dim`. -/
structure LinearParams where
  weight : List (List ℝ)
  bias : List ℝ

/-- `nn.Linear` applied to one input row. -/
def linearRow (p : LinearParams) (x : List ℝ) : List ℝ :=
  List.zipWith (fun w b => dot w x + b) p.weight p.bias

/-- `nn.Linear` applied to a batch. -/
def linearB (p : LinearParams) (xs : Tensor2) : Tensor2 :=
  xs.map (linearRow p)

/-- Mean of a list of reals. -/
def listMean (l : List ℝ) : ℝ := l.sum / l.length

/-- Biased (population) variance, as `BatchNorm1d` uses for normalization
in training mode. -/
def biasedVar (l : List ℝ) : ℝ :=
  listMean (l.map (fun x => (x - listMean l) ^ 2))

/-- Column `j` of a batch (feature `j` across the batch). -/
def column (xs : Tensor2) (j : ℕ) : List ℝ :=
  xs.map (fun r => r.getD j 0)

/-- `nn.BatchNorm1d` in training mode applied to one row of the batch:
each feature is normalized with the batch statistics of its column and
then scaled/shifted by the learnable `gamma`/`beta`. -/
def batchNormRow (gamma beta : List ℝ) (eps : ℝ) (xs : Tensor2)
    (row : List ℝ) : List ℝ :=
  (List.range row.length).map (fun j =>
    gamma.getD j 1 *
        ((row.getD j 0 - listMean (column xs j)) /
          Real.sqrt (biasedVar (column xs j) + eps)) +
      beta.getD j 0)

/-- `nn.BatchNorm1d` in training mode applied to a batch. -/
def batchNorm1d (gamma beta : List ℝ) (eps : ℝ) (xs : Tensor2) : Tensor2 :=
  xs.map (batchNormRow gamma beta eps xs)

/-- `nn.LeakyReLU(negative_slope)` on one scalar. -/
def leakyRelu (slope x : ℝ) : ℝ := if 0 ≤ x then x else slope * x

/-- `nn.LeakyReLU` on a batch. -/
def leakyReluB (slope : ℝ) (xs : Tensor2) : Tensor2 :=
  xs.map (List.map (leakyRelu slope))

/-- `nn.Dropout(p)` in training mode: entries whose mask bit is `true`
are kept and rescaled by `1 / (1 - p)`, the rest are zeroed.  The random
mask is passed in explicitly, indexed by (row, column). -/
def dropoutB (p : ℝ) (mask : ℕ → ℕ → Bool) (xs : Tensor2) : Tensor2 :=
  xs.mapIdx (fun i row => row.mapIdx (fun j x =>
    if mask i j then x / (1 - p) else 0))

/-- The logistic sigmoid, the mathematical function computed by
`nn.Sigmoid`. -/
def sigmoid (x : ℝ) : ℝ := 1 / (1 + Real.exp (-x))

/-- `nn.Sigmoid` on a batch. -/
def sigmoidB (xs : Tensor2) : Tensor2 := xs.map (List.map sigmoid)

/-- Parameters of one generator block
(`Linear` then `BatchNorm1d(gamma, beta)`). -/
structure GenBlockParams where
  lin : LinearParams
  gamma : List ℝ
  beta : List ℝ

/-- `get_generator_block`: `Linear` → `BatchNorm1d` → `LeakyReLU(0.2)` →
`Dropout(0.3)`, in training mode with an explicit dropout mask. -/
def get_generator_block (p : GenBlockParams) (mask : ℕ → ℕ → Bool)
    (xs : Tensor2) : Tensor2 :=
  dropoutB 0.3 mask
    (leakyReluB 0.2 (batchNorm1d p.gamma p.beta 1e-5 (linearB p.lin xs)))

/-- The dropout masks consumed by one generator forward pass (one mask
per generator block). -/
structure DropMasks where
  m1 : ℕ → ℕ → Bool
  m2 : ℕ → ℕ → Bool
  m3 : ℕ → ℕ → Bool
  m4 : ℕ → ℕ → Bool

/-- Parameters of the `Generator` module: four generator blocks followed
by a final `Linear` (the `nn.Sigmoid` has no parameters). -/
structure Generator where
  b1 : GenBlockParams
  b2 : GenBlockParams
  b3 : GenBlockParams
  b4 : GenBlockParams
  final : LinearParams

/-- `Generator.forward`: the four blocks, the final linear map and the
sigmoid squashing, exactly as in `self.gen`. -/
def Generator.forward (p : Generator) (mk : DropMasks)
    (noise : Tensor2) : Tensor2 :=
  sigmoidB (linearB p.final
    (get_generator_block p.b4 mk.m4
      (get_generator_block p.b3 mk.m3
        (get_generator_block p.b2 mk.m2
          (get_generator_block p.b1 mk.m1 noise)))))

/-- `get_generator_noise(n_sample, z_dim)`: a `[n_sample, z_dim]` tensor
drawn from the ambient random source `randn`. -/
def get_generator_noise (randn : ℕ → ℕ → ℝ) (n_sample zd : ℕ) : Tensor2 :=
  (List.range n_sample).map (fun i => (List.range zd).map (fun j => randn i j))

/-- `get_discriminator_block`: `Linear` → `LeakyReLU(0.2)`. -/
def get_discriminator_block (p : LinearParams) (xs : Tensor2) : Tensor2 :=
  leakyReluB 0.2 (linearB p xs)

/-- Parameters of the `Discriminator` module: three discriminator blocks
and a final `Linear` down to one logit. -/
structure Discriminator where
  b1 : LinearParams
  b2 : LinearParams
  b3 : LinearParams
  final : LinearParams

/-- `Discriminator.forward`, exactly as in `self.disc`. -/
def Discriminator.forward (p : Discriminator) (image : Tensor2) : Tensor2 :=
  linearB p.final
    (get_discriminator_block p.b3
      (get_discriminator_block p.b2
        (get_discriminator_block p.b1 image)))

/-- Pointwise binary cross-entropy with logits,
`-(y * log σ(z) + (1 - y) * log (1 - σ(z)))`, the mathematical function
computed by `nn.BCEWithLogitsLoss` before reduction. -/
def bceWithLogits (z y : ℝ) : ℝ :=
  -(y * Real.log (sigmoid z) + (1 - y) * Real.log (1 - sigmoid z))

/-- Number of elements of a 2-D tensor. -/
def numel (xs : Tensor2) : ℕ := (xs.map List.length).sum

/-- `nn.BCEWithLogitsLoss()` (mean reduction) against a constant target
tensor, as produced by `torch.zeros_like` / `torch.ones_like`. -/
def bceWithLogitsMeanConst (zs : Tensor2) (y : ℝ) : ℝ :=
  ((zs.map (fun r => (r.map (fun z => bceWithLogits z y)).sum)).sum) /
    (numel zs : ℝ)

/-- The two parameter owners of the program: the generator's learnable
tensors and the discriminator's. -/
inductive Owner : Type where
  | gen : Owner
  | disc : Owner
deriving DecidableEq

/-- A tensor together with the set of parameter owners reachable from it
in the autograd graph (the owners whose parameters would receive
gradients from `backward` on a scalar derived from it). -/
structure TTensor where
  val : Tensor2
  deps : Finset Owner

/-- A freshly created tensor with `requires_grad=False` (data batches,
`torch.randn` noise): no autograd history. -/
def tInput (xs : Tensor2) : TTensor := ⟨xs, ∅⟩

/-- `Tensor.detach()`: same values, cut off from the autograd graph. -/
def TTensor.detach (t : TTensor) : TTensor := ⟨t.val, ∅⟩

/-- Applying the generator module records that the result depends on the
generator's parameters (they require grad) besides the input's history. -/
def tGenerator (p : Generator) (mk : DropMasks) (t : TTensor) : TTensor :=
  ⟨p.forward mk t.val, insert Owner.gen t.deps⟩

/-- Applying the discriminator module records a dependency on the
discriminator's parameters besides the input's history. -/
def tDiscriminator (p : Discriminator) (t : TTensor) : TTensor :=
  ⟨p.forward t.val, insert Owner.disc t.deps⟩

/-- A scalar loss with its autograd dependencies. -/
structure TScalar where
  val : ℝ
  deps : Finset Owner

/-- `criterion = nn.BCEWithLogitsLoss()` applied to logits and a constant
target tensor (`torch.zeros_like` / `torch.ones_like`, which do not
require grad). -/
def tCriterion (logits : TTensor) (target : ℝ) : TScalar :=
  ⟨bceWithLogitsMeanConst logits.val target, logits.deps⟩

/-- Sum of two scalar losses in the autograd graph. -/
def TScalar.add (a b : TScalar) : TScalar := ⟨a.val + b.val, a.deps ∪ b.deps⟩

/-- Division of a scalar loss by a Python integer constant. -/
def TScalar.divNat (a : TScalar) (n : ℕ) : TScalar := ⟨a.val / (n : ℝ), a.deps⟩

/-- `get_discriminator_loss(gen, disc, criterion, real, num_images,
z_dim, device)`.  The random source for the noise and the dropout masks
for the generator's forward pass are explicit arguments; `criterion` is
the fixed `BCEWithLogitsLoss` and `device` is immaterial here. -/
def get_discriminator_loss (randn : ℕ → ℕ → ℝ) (mk : DropMasks)
    (gen : Generator) (disc : Discriminator) (real : TTensor)
    (num_images zd : ℕ) : TScalar :=
  let noise := get_generator_noise randn num_images zd
  let gen_output := tGenerator gen mk (tInput noise)
  let disc_out_fake := tDiscriminator disc gen_output.detach
  let disc_loss_fake := tCriterion disc_out_fake 0
  let disc_out_real := tDiscriminator disc real
  let disc_loss_real := tCriterion disc_out_real 1
  (disc_loss_fake.add disc_loss_real).divNat 2

/-- `get_generator_loss(gen, disc, criterion, num_images, z_dim,
device)`: fresh noise, generator forward without detaching, and the
discriminator's logits scored against an all-ones target. -/
def get_generator_loss (randn : ℕ → ℕ → ℝ) (mk : DropMasks)
    (gen : Generator) (disc : Discriminator) (num_images zd : ℕ) : TScalar :=
  let noise := get_generator_noise randn num_images zd
  let gen_output := tGenerator gen mk (tInput noise)
  let disc_preds := tDiscriminator disc gen_output
  tCriterion disc_preds 1

-- Small concrete parameter instances used to instantiate theorems with
-- hypotheses at explicit inputs.
def trivLin : LinearParams := ⟨[[1]], [0]⟩

def trivBlock : GenBlockParams := ⟨trivLin, [1], [0]⟩

def genW : Generator := ⟨trivBlock, trivBlock, trivBlock, trivBlock, trivLin⟩

def discW : Discriminator := ⟨trivLin, trivLin, trivLin, trivLin⟩

def mask0 : ℕ → ℕ → Bool := fun _ _ => true

def mk0 : DropMasks := ⟨mask0, mask0, mask0, mask0⟩

def randn0 : ℕ → ℕ → ℝ := fun _ _ => 0

/-! ### Parameter-structure maps (for `zero_grad` and gradient
accumulation) -/

def LinearParams.emap (f : ℝ → ℝ) (p : LinearParams) : LinearParams :=
  ⟨p.weight.map (List.map f), p.bias.map f⟩

def LinearParams.ezip (f : ℝ → ℝ → ℝ) (p q : LinearParams) : LinearParams :=
  ⟨List.zipWith (List.zipWith f) p.weight q.weight,
    List.zipWith f p.bias q.bias⟩

def GenBlockParams.emap (f : ℝ → ℝ) (p : GenBlockParams) : GenBlockParams :=
  ⟨p.lin.emap f, p.gamma.map f, p.beta.map f⟩

def GenBlockParams.ezip (f : ℝ → ℝ → ℝ) (p q : GenBlockParams) :
    GenBlockParams :=
  ⟨p.lin.ezip f q.lin, List.zipWith f p.gamma q.gamma,
    List.zipWith f p.beta q.beta⟩

def Generator.emap (f : ℝ → ℝ) (p : Generator) : Generator :=
  ⟨p.b1.emap f, p.b2.emap f, p.b3.emap f, p.b4.emap f, p.final.emap f⟩

def Generator.ezip (f : ℝ → ℝ → ℝ) (p q : Generator) : Generator :=
  ⟨p.b1.ezip f q.b1, p.b2.ezip f q.b2, p.b3.ezip f q.b3, p.b4.ezip f q.b4,
    p.final.ezip f q.final⟩

def Discriminator.emap (f : ℝ → ℝ) (p : Discriminator) : Discriminator :=
  ⟨p.b1.emap f, p.b2.emap f, p.b3.emap f, p.final.emap f⟩

def Discriminator.ezip (f : ℝ → ℝ → ℝ) (p q : Discriminator) :
    Discriminator :=
  ⟨p.b1.ezip f q.b1, p.b2.ezip f q.b2, p.b3.ezip f q.b3,
    p.final.ezip f q.final⟩

/-! ### The training loop as a state machine -/

/-- The mutable state of the training loop: both networks' parameters
and `.grad` buffers, the last computed loss values, the two running-mean
accumulators, the appended lists (`G_losses`, `D_losses`, `img_list`),
the console reports, two observation logs recording which discriminator
parameters each phase produced/consumed, and `cur_step`. -/
structure TrainState where
  genPs : Generator
  discPs : Discriminator
  genGrad : Generator
  discGrad : Discriminator
  last_disc_loss : ℝ
  last_gen_loss : ℝ
  mean_generator_loss : ℝ
  mean_discriminator_loss : ℝ
  G_losses : List ℝ
  D_losses : List ℝ
  img_list : List Tensor2
  reports : List (ℕ × ℝ × ℝ)
  discAfterStep : List Discriminator
  genLossDiscArg : List Discriminator
  cur_step : ℕ

/-- The randomness and backward-pass results consumed by one training
step: noise sources and dropout masks for the three generator forward
passes (discriminator loss, generator loss, visualization), and the
gradient tensors autodiff computes for each loss with respect to each
network's parameters. -/
structure StepRand where
  randnD : ℕ → ℕ → ℝ
  mkD : DropMasks
  randnG : ℕ → ℕ → ℝ
  mkG : DropMasks
  randnV : ℕ → ℕ → ℝ
  mkV : DropMasks
  dgD : Generator
  ddD : Discriminator
  dgG : Generator
  ddG : Discriminator

/-- `loss.backward()` on the generator's `.grad` buffers: gradients
accumulate only into parameters reachable in the loss's autograd
graph. -/
def backwardGen (loss : TScalar) (buf dg : Generator) : Generator :=
  if Owner.gen ∈ loss.deps then Generator.ezip (· + ·) buf dg else buf

/-- `loss.backward()` on the discriminator's `.grad` buffers. -/
def backwardDisc (loss : TScalar) (buf dd : Discriminator) : Discriminator :=
  if Owner.disc ∈ loss.deps then Discriminator.ezip (· + ·) buf dd else buf

/-- `disc_optimizer.zero_grad(); disc_loss = get_discriminator_loss(…);
disc_loss.backward(); disc_optimizer.step()`.  The optimizer update `UD`
(Adam's parameter update) is abstract; it is applied to the
discriminator's parameters and gradient buffers only, since
`disc_optimizer` was built over `discriminator.parameters()`. -/
def discPhase (UD : Discriminator → Discriminator → Discriminator)
    (r : StepRand) (real : Tensor2) (st : TrainState) : TrainState :=
  let st0 := { st with discGrad := st.discPs.emap (fun _ => 0) }
  let disc_loss := get_discriminator_loss r.randnD r.mkD st0.genPs
    st0.discPs (tInput real) real.length z_dim
  let st1 := { st0 with
    discGrad := backwardDisc disc_loss st0.discGrad r.ddD,
    genGrad := backwardGen disc_loss st0.genGrad r.dgD }
  let st2 := { st1 with discPs := UD st1.discPs st1.discGrad }
  { st2 with
    last_disc_loss := disc_loss.val,
    discAfterStep := st2.discAfterStep ++ [st2.discPs] }

/-- `gen_optimizer.zero_grad(); gen_loss = get_generator_loss(…);
gen_loss.backward(); gen_optimizer.step()`.  The log records which
discriminator parameters the generator loss was computed against. -/
def genPhase (UG : Generator → Generator → Generator) (r : StepRand)
    (B : ℕ) (st : TrainState) : TrainState :=
  let st0 := { st with genGrad := st.genPs.emap (fun _ => 0) }
  let gen_loss := get_generator_loss r.randnG r.mkG st0.genPs st0.discPs
    B z_dim
  let st1 := { st0 with
    genGrad := backwardGen gen_loss st0.genGrad r.dgG,
    discGrad := backwardDisc gen_loss st0.discGrad r.ddG }
  let st2 := { st1 with genPs := UG st1.genPs st1.genGrad }
  { st2 with
    last_gen_loss := gen_loss.val,
    genLossDiscArg := st2.genLossDiscArg ++ [st0.discPs] }

/-- `mean_discriminator_loss += disc_loss.item() / cur_batch_size;
mean_generator_loss += gen_loss.item() / cur_batch_size;
G_losses.append(mean_discriminator_loss);
D_losses.append(mean_generator_loss)` — note which accumulator feeds
which list. -/
def recordPhase (B : ℕ) (st : TrainState) : TrainState :=
  let mdl := st.mean_discriminator_loss + st.last_disc_loss / (B : ℝ)
  let mgl := st.mean_generator_loss + st.last_gen_loss / (B : ℝ)
  { st with
    mean_discriminator_loss := mdl,
    mean_generator_loss := mgl,
    G_losses := st.G_losses ++ [mdl],
    D_losses := st.D_losses ++ [mgl] }

/-- `if cur_step % display_step == 0 and cur_step >= 0:` print the
running means, sample a fresh visualization batch from the generator,
append its grid (first 36 images) to `img_list`, and reset both running
means to zero. -/
def displayPhase (r : StepRand) (B : ℕ) (st : TrainState) : TrainState :=
  if st.cur_step % display_step = 0 ∧ 0 ≤ st.cur_step then
    { st with
      reports := st.reports ++
        [(st.cur_step, st.mean_generator_loss, st.mean_discriminator_loss)],
      img_list := st.img_list ++
        [(st.genPs.forward r.mkV
            (get_generator_noise r.randnV B z_dim)).take 36],
      mean_discriminator_loss := 0,
      mean_generator_loss := 0 }
  else st

/-- `cur_step += 1`. -/
def stepIncr (st : TrainState) : TrainState :=
  { st with cur_step := st.cur_step + 1 }

/-- One iteration of the inner `for real, _ in train_loader` loop.  The
per-epoch `show_tensor_images` call is pure display and touches no
tracked state. -/
def trainStep (UG : Generator → Generator → Generator)
    (UD : Discriminator → Discriminator → Discriminator)
    (r : StepRand) (real : Tensor2) (st : TrainState) : TrainState :=
  stepIncr (displayPhase r real.length
    (recordPhase real.length
      (genPhase UG r real.length
        (discPhase UD r real st))))

/-- One epoch: fold the step over the loader's batches, drawing fresh
per-step randomness keyed by `cur_step`. -/
def runEpoch (UG : Generator → Generator → Generator)
    (UD : Discriminator → Discriminator → Discriminator)
    (rs : ℕ → StepRand) (batches : List Tensor2) (st : TrainState) :
    TrainState :=
  batches.foldl (fun s real => trainStep UG UD (rs s.cur_step) real s) st

/-- The full run: `for epoch in range(num_epochs)` over the (shuffled,
hence epoch-indexed) batch lists. -/
def runTraining (UG : Generator → Generator → Generator)
    (UD : Discriminator → Discriminator → Discriminator)
    (rs : ℕ → StepRand) (E : ℕ) (batchesOf : ℕ → List Tensor2)
    (st : TrainState) : TrainState :=
  (List.range E).foldl (fun s e => runEpoch UG UD rs (batchesOf e) s) st

/-- The state set up just before the training loop: empty lists, zero
accumulators, `cur_step = 0`. -/
def initState (gp : Generator) (dp : Discriminator) : TrainState :=
  { genPs := gp
    discPs := dp
    genGrad := gp.emap (fun _ => 0)
    discGrad := dp.emap (fun _ => 0)
    last_disc_loss := 0
    last_gen_loss := 0
    mean_generator_loss := 0
    mean_discriminator_loss := 0
    G_losses := []
    D_losses := []
    img_list := []
    reports := []
    discAfterStep := []
    genLossDiscArg := []
    cur_step := 0 }

/-! ### The statement order of one loop iteration -/

/-- The statements of one training-loop iteration, in program order. -/
inductive Event : Type where
  | zeroGradDisc : Event
  | discLossCompute : Event
  | discBackward : Event
  | discOptStep : Event
  | zeroGradGen : Event
  | genLossCompute : Event
  | genBackward : Event
  | genOptStep : Event
  | record : Event
  | display : Event
deriving DecidableEq

/-- One iteration's statements in the order they appear in the source. -/
def stepEvents : List Event :=
  [Event.zeroGradDisc, Event.discLossCompute, Event.discBackward,
   Event.discOptStep, Event.zeroGradGen, Event.genLossCompute,
   Event.genBackward, Event.genOptStep, Event.record, Event.display]

/-- The statement trace of a whole training run of `E` epochs of `B`
batches, each event tagged with its (epoch, batch) indices. -/
def trainTrace (E B : ℕ) : List (ℕ × ℕ × Event) :=
  (List.range E).flatMap (fun e =>
    (List.range B).flatMap (fun b => stepEvents.map (fun ev => (e, b, ev))))

-- Concrete optimizer updates and per-step randomness used to
-- instantiate loop theorems at explicit inputs.
def U0G : Generator → Generator → Generator := fun p _ => p

def U0D : Discriminator → Discriminator → Discriminator := fun p _ => p

def r0 : StepRand :=
  ⟨randn0, mk0, randn0, mk0, randn0, mk0, genW, discW, genW, discW⟩

def rs0 : ℕ → StepRand := fun _ => r0

/-! ### The data loader's batch structure -/

/-- Batch sizes produced by `DataLoader(data_train, batch_size=bs,
shuffle=True)` over a dataset of `n` examples: with the default
`drop_last=False` the loader yields `n / bs` full batches followed by a
final partial batch of `n % bs` examples when `bs` does not divide
`n`. -/
def loaderBatchSizes (n bs : ℕ) : List ℕ :=
  List.replicate (n / bs) bs ++ (if n % bs = 0 then [] else [n % bs])

/-- Concrete networks with the notebook's output dimensions, for
instantiating the batch-count theorem. -/
def genWide : Generator :=
  ⟨trivBlock, trivBlock, trivBlock, trivBlock,
    ⟨List.replicate img_dim [], List.replicate img_dim 0⟩⟩

/-! ### Shape lemmas for the forward passes -/

theorem linearB_length (p : LinearParams) (xs : Tensor2) :
    (linearB p xs).length = xs.length :=
  List.length_map _ _

theorem batchNorm1d_length (gamma beta : List ℝ) (eps : ℝ) (xs : Tensor2) :
    (batchNorm1d gamma beta eps xs).length = xs.length :=
  List.length_map _ _

theorem leakyReluB_length (slope : ℝ) (xs : Tensor2) :
    (leakyReluB slope xs).length = xs.length :=
  List.length_map _ _

theorem dropoutB_length (p : ℝ) (mask : ℕ → ℕ → Bool) (xs : Tensor2) :
    (dropoutB p mask xs).length = xs.length :=
  List.length_mapIdx

theorem sigmoidB_length (xs : Tensor2) :
    (sigmoidB xs).length = xs.length :=
  List.length_map _ _

theorem get_generator_block_length (p : GenBlockParams)
    (mask : ℕ → ℕ → Bool) (xs : Tensor2) :
    (get_generator_block p mask xs).length = xs.length := by
  simp [get_generator_block, dropoutB_length, leakyReluB_length,
    batchNorm1d_length, linearB_length]

theorem generator_forward_length (p : Generator) (mk : DropMasks)
    (noise : Tensor2) : (p.forward mk noise).length = noise.length := by
  simp [Generator.forward, sigmoidB_length, linearB_length,
    get_generator_block_length]

theorem linearRow_length (p : LinearParams) (x : List ℝ) :
    (linearRow p x).length = min p.weight.length p.bias.length := by
  simp [linearRow]

theorem get_discriminator_block_length (p : LinearParams) (xs : Tensor2) :
    (get_discriminator_block p xs).length = xs.length := by
  simp [get_discriminator_block, leakyReluB_length, linearB_length]

theorem discriminator_forward_length (p : Discriminator) (image : Tensor2) :
    (p.forward image).length = image.length := by
  simp [Discriminator.forward, linearB_length,
    get_discriminator_block_length]

theorem discriminator_forward_row_length (p : Discriminator)
    (image : Tensor2) :
    ∀ row ∈ p.forward image,
      row.length = min p.final.weight.length p.final.bias.length := by
  intro row hrow
  simp only [Discriminator.forward, linearB, List.mem_map] at hrow
  obtain ⟨x, -, rfl⟩ := hrow
  exact linearRow_length _ _

/-! ### The sigmoid output bound -/

theorem sigmoid_pos (x : ℝ) : 0 < sigmoid x := by
  have h : (0 : ℝ) < 1 + Real.exp (-x) :=
    lt_trans one_pos (lt_add_of_pos_right 1 (Real.exp_pos (-x)))
  exact div_pos one_pos h

theorem sigmoid_lt_one (x : ℝ) : sigmoid x < 1 := by
  have h : (0 : ℝ) < 1 + Real.exp (-x) :=
    lt_trans one_pos (lt_add_of_pos_right 1 (Real.exp_pos (-x)))
  rw [sigmoid, div_lt_one h]
  exact lt_add_of_pos_right 1 (Real.exp_pos (-x))

/-- C1: for every batch size `B` and latent dimension `Z`, the
generator's forward pass on a noise input of shape `[B, Z]` returns an
output of shape `[B, output_dim]` in which every element lies in the
open interval `(0, 1)`, the bound coming from the final sigmoid layer by
construction. -/
theorem generator_forward_shape_and_open_unit_range
    (p : Generator) (mk : DropMasks) (noise : Tensor2)
    (B Z outputDim : ℕ)
    (hB : noise.length = B)
    (_hZ : ∀ row ∈ noise, row.length = Z)
    (hw : p.final.weight.length = outputDim)
    (hb : p.final.bias.length = outputDim) :
    (p.forward mk noise).length = B ∧
    (∀ row ∈ p.forward mk noise, row.length = outputDim) ∧
    (∀ row ∈ p.forward mk noise, ∀ x ∈ row, 0 < x ∧ x < 1) := by
  refine ⟨by rw [generator_forward_length, hB], ?_, ?_⟩
  · intro row hrow
    simp only [Generator.forward, sigmoidB, List.mem_map] at hrow
    obtain ⟨r, hr, rfl⟩ := hrow
    simp only [linearB, List.mem_map] at hr
    obtain ⟨x, -, rfl⟩ := hr
    simp [linearRow_length, hw, hb]
  · intro row hrow x hx
    simp only [Generator.forward, sigmoidB, List.mem_map] at hrow
    obtain ⟨r, -, rfl⟩ := hrow
    simp only [List.mem_map] at hx
    obtain ⟨z, -, rfl⟩ := hx
    exact ⟨sigmoid_pos z, sigmoid_lt_one z⟩

/-- Witness for C1 at a concrete `[1, 1]` noise input. -/
theorem generator_forward_shape_and_open_unit_range_witness :
    (genW.forward mk0 [[(0 : ℝ)]]).length = 1 ∧
    (∀ row ∈ genW.forward mk0 [[(0 : ℝ)]], row.length = 1) ∧
    (∀ row ∈ genW.forward mk0 [[(0 : ℝ)]], ∀ x ∈ row, 0 < x ∧ x < 1) :=
  generator_forward_shape_and_open_unit_range genW mk0 [[(0 : ℝ)]] 1 1 1
    rfl (by simp) rfl rfl

/-! ### Autograd dependencies of the two losses -/

theorem get_discriminator_loss_deps (randn : ℕ → ℕ → ℝ) (mk : DropMasks)
    (gen : Generator) (disc : Discriminator) (real : TTensor)
    (num_images zd : ℕ) :
    (get_discriminator_loss randn mk gen disc real num_images zd).deps
      = insert Owner.disc real.deps := by
  simp [get_discriminator_loss, tCriterion, tDiscriminator, tGenerator,
    tInput, TTensor.detach, TScalar.add, TScalar.divNat,
    ← Finset.insert_eq]

theorem get_generator_loss_deps (randn : ℕ → ℕ → ℝ) (mk : DropMasks)
    (gen : Generator) (disc : Discriminator) (num_images zd : ℕ) :
    (get_generator_loss randn mk gen disc num_images zd).deps
      = insert Owner.disc {Owner.gen} := by
  simp [get_generator_loss, tCriterion, tDiscriminator, tGenerator, tInput]

/-- C2: the discriminator loss is the unweighted average of the
cross-entropy-with-logits of the discriminator's logits on the
generator's output against target 0 and of its logits on the real batch
against target 1, and — because the generator output is detached — the
generator's parameters are not in the loss's autograd graph, so no
gradient flows to them. -/
theorem discriminator_loss_is_average_and_detached
    (randn : ℕ → ℕ → ℝ) (mk : DropMasks) (gen : Generator)
    (disc : Discriminator) (real : Tensor2) (num_images zd : ℕ) :
    (get_discriminator_loss randn mk gen disc (tInput real)
        num_images zd).val
      = (bceWithLogitsMeanConst
            (disc.forward
              (gen.forward mk (get_generator_noise randn num_images zd))) 0
          + bceWithLogitsMeanConst (disc.forward real) 1) / 2 ∧
    Owner.gen ∉ (get_discriminator_loss randn mk gen disc (tInput real)
        num_images zd).deps := by
  constructor
  · simp only [get_discriminator_loss, tCriterion, tDiscriminator,
      tGenerator, tInput, TTensor.detach, TScalar.add, TScalar.divNat]
    norm_num
  · rw [get_discriminator_loss_deps]
    simp [tInput]

/-- C3: the generator loss samples fresh noise of the requested batch
size, feeds it through the generator with gradient flow enabled (the
generator's parameters are in the loss's autograd graph), and returns
the cross-entropy-with-logits of the discriminator's logits on that
output against the all-ones ("real") target. -/
theorem generator_loss_formula_and_grad_flow
    (randn : ℕ → ℕ → ℝ) (mk : DropMasks) (gen : Generator)
    (disc : Discriminator) (num_images zd : ℕ) :
    (get_generator_loss randn mk gen disc num_images zd).val
      = bceWithLogitsMeanConst
          (disc.forward
            (gen.forward mk (get_generator_noise randn num_images zd))) 1 ∧
    (get_generator_noise randn num_images zd).length = num_images ∧
    (∀ row ∈ get_generator_noise randn num_images zd, row.length = zd) ∧
    Owner.gen ∈ (get_generator_loss randn mk gen disc num_images zd).deps := by
  refine ⟨?_, by simp [get_generator_noise], ?_, ?_⟩
  · simp only [get_generator_loss, tCriterion, tDiscriminator, tGenerator,
      tInput]
  · intro row hrow
    simp only [get_generator_noise, List.mem_map] at hrow
    obtain ⟨i, -, rfl⟩ := hrow
    simp
  · rw [get_generator_loss_deps]
    simp

/-! ### Permutation invariance of the discriminator loss -/

theorem bceWithLogitsMeanConst_perm {xs ys : Tensor2} (h : xs.Perm ys)
    (y : ℝ) : bceWithLogitsMeanConst xs y = bceWithLogitsMeanConst ys y := by
  unfold bceWithLogitsMeanConst numel
  rw [List.Perm.sum_eq (h.map _), List.Perm.sum_eq (h.map _)]

theorem Discriminator.forward_perm (p : Discriminator) {xs ys : Tensor2}
    (h : xs.Perm ys) : (p.forward xs).Perm (p.forward ys) := by
  simp only [Discriminator.forward, get_discriminator_block, leakyReluB,
    linearB]
  exact ((((((h.map _).map _).map _).map _).map _).map _).map _

/-- C6: holding the sampled noise and the parameters fixed, the
discriminator loss is invariant under permuting the examples of the real
batch — it is a per-example average with no cross-example interaction. -/
theorem discriminator_loss_perm_invariant
    (randn : ℕ → ℕ → ℝ) (mk : DropMasks) (gen : Generator)
    (disc : Discriminator) (zd : ℕ) (real real_p : Tensor2)
    (h : real.Perm real_p) :
    (get_discriminator_loss randn mk gen disc (tInput real)
        real.length zd).val
      = (get_discriminator_loss randn mk gen disc (tInput real_p)
          real_p.length zd).val := by
  have hlen := h.length_eq
  simp only [get_discriminator_loss, TScalar.divNat, TScalar.add,
    tCriterion, tDiscriminator, tGenerator, tInput, TTensor.detach]
  rw [← hlen, bceWithLogitsMeanConst_perm (disc.forward_perm h) 1]

/-- Witness for C6 on the concrete batch `[[1], [2]]` and its swap. -/
theorem discriminator_loss_perm_invariant_witness :
    (get_discriminator_loss randn0 mk0 genW discW
        (tInput [[(1 : ℝ)], [(2 : ℝ)]])
        ([[(1 : ℝ)], [(2 : ℝ)]] : Tensor2).length 1).val
      = (get_discriminator_loss randn0 mk0 genW discW
          (tInput [[(2 : ℝ)], [(1 : ℝ)]])
          ([[(2 : ℝ)], [(1 : ℝ)]] : Tensor2).length 1).val :=
  discriminator_loss_perm_invariant randn0 mk0 genW discW 1 _ _
    (List.Perm.swap _ _ _)

theorem infix_flatMap_of_mem_general {α β : Type _} {a : α} {l : List α}
    (h : a ∈ l) (f : α → List β) : f a <:+: l.flatMap f := by
  rw [List.flatMap_def]
  exact List.infix_of_mem_flatten (List.mem_map_of_mem f h)

theorem foldl_preserves {σ α : Type _} (P : σ → Prop) (f : σ → α → σ)
    (hf : ∀ s a, P s → P (f s a)) :
    ∀ (l : List α) (s : σ), P s → P (l.foldl f s)
  | [], _, h => h
  | a :: l, s, h => foldl_preserves P f hf l (f s a) (hf s a h)

theorem trainStep_preserves_log_eq
    (UG : Generator → Generator → Generator)
    (UD : Discriminator → Discriminator → Discriminator)
    (r : StepRand) (real : Tensor2) (st : TrainState)
    (h : st.genLossDiscArg = st.discAfterStep) :
    (trainStep UG UD r real st).genLossDiscArg
      = (trainStep UG UD r real st).discAfterStep := by
  simp only [trainStep, stepIncr, displayPhase, recordPhase, genPhase,
    discPhase]
  split <;> simp [h]

/-- C4: within every step of every epoch the discriminator's optimizer
step occurs strictly before the generator's loss is computed (the two
statements occur in that order in the program trace), and along any run
the discriminator parameters each generator loss is computed against are
exactly the parameters left by that same step's discriminator update. -/
theorem disc_update_strictly_before_gen_loss
    (E B e b : ℕ) (he : e < E) (hb : b < B)
    (UG : Generator → Generator → Generator)
    (UD : Discriminator → Discriminator → Discriminator)
    (rs : ℕ → StepRand) (batchesOf : ℕ → List Tensor2) (st : TrainState)
    (hlog : st.genLossDiscArg = st.discAfterStep) :
    [(e, b, Event.discOptStep), (e, b, Event.genLossCompute)].Sublist
      (trainTrace E B) ∧
    (runTraining UG UD rs E batchesOf st).genLossDiscArg
      = (runTraining UG UD rs E batchesOf st).discAfterStep := by
  constructor
  · have h1 : [Event.discOptStep, Event.genLossCompute].Sublist
        stepEvents := by decide
    have h2 := h1.map (fun ev => (e, b, ev))
    have h3 : (stepEvents.map (fun ev => (e, b, ev))) <:+:
        ((List.range B).flatMap
          (fun b2 => stepEvents.map (fun ev => (e, b2, ev)))) :=
      infix_flatMap_of_mem_general (List.mem_range.mpr hb)
        (fun b2 => stepEvents.map (fun ev => (e, b2, ev)))
    have h4 : ((List.range B).flatMap
        (fun b2 => stepEvents.map (fun ev => (e, b2, ev)))) <:+:
        trainTrace E B :=
      infix_flatMap_of_mem_general (List.mem_range.mpr he)
        (fun e2 => (List.range B).flatMap
          (fun b2 => stepEvents.map (fun ev => (e2, b2, ev))))
    exact h2.trans (h3.trans h4).sublist
  · exact foldl_preserves (fun s => s.genLossDiscArg = s.discAfterStep) _
      (fun s a hs =>
        foldl_preserves (fun s2 => s2.genLossDiscArg = s2.discAfterStep) _
          (fun s2 real hs2 =>
            trainStep_preserves_log_eq UG UD (rs s2.cur_step) real s2 hs2)
          (batchesOf a) s hs)
      (List.range E) st hlog

/-- Witness for C4 at one epoch of one concrete batch. -/
theorem disc_update_strictly_before_gen_loss_witness :
    [(0, 0, Event.discOptStep), (0, 0, Event.genLossCompute)].Sublist
      (trainTrace 1 1) ∧
    (runTraining U0G U0D rs0 1 (fun _ => [[[(1 : ℝ)]]])
        (initState genW discW)).genLossDiscArg
      = (runTraining U0G U0D rs0 1 (fun _ => [[[(1 : ℝ)]]])
          (initState genW discW)).discAfterStep :=
  disc_update_strictly_before_gen_loss 1 1 0 0 (by decide) (by decide)
    U0G U0D rs0 (fun _ => [[[(1 : ℝ)]]]) (initState genW discW) rfl

/-- C5: the discriminator's optimizer step leaves the generator's
parameters (and, thanks to the detach, even its gradient buffers)
bit-for-bit unchanged, and the subsequent generator optimizer step
leaves the discriminator's parameters unchanged from their values right
after the discriminator's step: each optimizer mutates only its own
network's parameters. -/
theorem optimizer_steps_mutate_only_own_network
    (UG : Generator → Generator → Generator)
    (UD : Discriminator → Discriminator → Discriminator)
    (r : StepRand) (real : Tensor2) (B : ℕ) (st : TrainState) :
    (discPhase UD r real st).genPs = st.genPs ∧
    (discPhase UD r real st).genGrad = st.genGrad ∧
    (genPhase UG r B (discPhase UD r real st)).discPs
      = (discPhase UD r real st).discPs := by
  refine ⟨rfl, ?_, rfl⟩
  simp only [discPhase, backwardGen, get_discriminator_loss_deps, tInput]
  simp

/-! ### Per-step characterizations of the loop state -/

theorem trainStep_G_losses (UG : Generator → Generator → Generator)
    (UD : Discriminator → Discriminator → Discriminator)
    (r : StepRand) (real : Tensor2) (st : TrainState) :
    (trainStep UG UD r real st).G_losses
      = st.G_losses ++ [st.mean_discriminator_loss +
          (get_discriminator_loss r.randnD r.mkD st.genPs st.discPs
            (tInput real) real.length z_dim).val / (real.length : ℝ)] := by
  simp only [trainStep, stepIncr, displayPhase, recordPhase, genPhase,
    discPhase]
  split <;> rfl

theorem trainStep_D_losses (UG : Generator → Generator → Generator)
    (UD : Discriminator → Discriminator → Discriminator)
    (r : StepRand) (real : Tensor2) (st : TrainState) :
    (trainStep UG UD r real st).D_losses
      = st.D_losses ++ [st.mean_generator_loss +
          (get_generator_loss r.randnG r.mkG st.genPs
            (discPhase UD r real st).discPs real.length z_dim).val
            / (real.length : ℝ)] := by
  simp only [trainStep, stepIncr, displayPhase, recordPhase, genPhase,
    discPhase]
  split <;> rfl

theorem trainStep_mean_discriminator_loss
    (UG : Generator → Generator → Generator)
    (UD : Discriminator → Discriminator → Discriminator)
    (r : StepRand) (real : Tensor2) (st : TrainState) :
    (trainStep UG UD r real st).mean_discriminator_loss
      = if st.cur_step % display_step = 0 then 0
        else st.mean_discriminator_loss +
          (get_discriminator_loss r.randnD r.mkD st.genPs st.discPs
            (tInput real) real.length z_dim).val / (real.length : ℝ) := by
  simp only [trainStep, stepIncr, displayPhase, recordPhase, genPhase,
    discPhase, Nat.zero_le, and_true]
  split <;> rfl

theorem trainStep_mean_generator_loss
    (UG : Generator → Generator → Generator)
    (UD : Discriminator → Discriminator → Discriminator)
    (r : StepRand) (real : Tensor2) (st : TrainState) :
    (trainStep UG UD r real st).mean_generator_loss
      = if st.cur_step % display_step = 0 then 0
        else st.mean_generator_loss +
          (get_generator_loss r.randnG r.mkG st.genPs
            (discPhase UD r real st).discPs real.length z_dim).val
            / (real.length : ℝ) := by
  simp only [trainStep, stepIncr, displayPhase, recordPhase, genPhase,
    discPhase, Nat.zero_le, and_true]
  split <;> rfl

theorem trainStep_reports (UG : Generator → Generator → Generator)
    (UD : Discriminator → Discriminator → Discriminator)
    (r : StepRand) (real : Tensor2) (st : TrainState) :
    (trainStep UG UD r real st).reports
      = if st.cur_step % display_step = 0 then
          st.reports ++ [(st.cur_step,
            st.mean_generator_loss +
              (get_generator_loss r.randnG r.mkG st.genPs
                (discPhase UD r real st).discPs real.length z_dim).val
                / (real.length : ℝ),
            st.mean_discriminator_loss +
              (get_discriminator_loss r.randnD r.mkD st.genPs st.discPs
                (tInput real) real.length z_dim).val / (real.length : ℝ))]
        else st.reports := by
  simp only [trainStep, stepIncr, displayPhase, recordPhase, genPhase,
    discPhase, Nat.zero_le, and_true]
  split <;> rfl

theorem trainStep_img_list_length
    (UG : Generator → Generator → Generator)
    (UD : Discriminator → Discriminator → Discriminator)
    (r : StepRand) (real : Tensor2) (st : TrainState) :
    (trainStep UG UD r real st).img_list.length
      = if st.cur_step % display_step = 0 then st.img_list.length + 1
        else st.img_list.length := by
  simp only [trainStep, stepIncr, displayPhase, recordPhase, genPhase,
    discPhase, Nat.zero_le, and_true]
  split <;> simp

theorem trainStep_discAfterStep
    (UG : Generator → Generator → Generator)
    (UD : Discriminator → Discriminator → Discriminator)
    (r : StepRand) (real : Tensor2) (st : TrainState) :
    (trainStep UG UD r real st).discAfterStep
      = st.discAfterStep ++ [(discPhase UD r real st).discPs] := by
  simp only [trainStep, stepIncr, displayPhase, recordPhase, genPhase,
    discPhase]
  split <;> rfl

theorem trainStep_genLossDiscArg
    (UG : Generator → Generator → Generator)
    (UD : Discriminator → Discriminator → Discriminator)
    (r : StepRand) (real : Tensor2) (st : TrainState) :
    (trainStep UG UD r real st).genLossDiscArg
      = st.genLossDiscArg ++ [(discPhase UD r real st).discPs] := by
  simp only [trainStep, stepIncr, displayPhase, recordPhase, genPhase,
    discPhase]
  split <;> rfl

/-- C8: in every training step, `G_losses` is appended with the running
discriminator-loss accumulator and `D_losses` with the running
generator-loss accumulator: the two reported curves carry each other's
values under swapped names. -/
theorem loss_curves_swapped_names (UG : Generator → Generator → Generator)
    (UD : Discriminator → Discriminator → Discriminator)
    (r : StepRand) (real : Tensor2) (st : TrainState) :
    (trainStep UG UD r real st).G_losses
      = st.G_losses ++ [st.mean_discriminator_loss +
          (get_discriminator_loss r.randnD r.mkD st.genPs st.discPs
            (tInput real) real.length z_dim).val / (real.length : ℝ)] ∧
    (trainStep UG UD r real st).D_losses
      = st.D_losses ++ [st.mean_generator_loss +
          (get_generator_loss r.randnG r.mkG st.genPs
            (discPhase UD r real st).discPs real.length z_dim).val
            / (real.length : ℝ)] :=
  ⟨trainStep_G_losses UG UD r real st, trainStep_D_losses UG UD r real st⟩

/-- C9: with `cur_step` starting at 0, the very first batch already
fires the console report and the `img_list` snapshot (so the running
means printed there hold only one batch's contribution), and in general
a step fires the report exactly when `cur_step % display_step == 0`. -/
theorem first_batch_triggers_report_and_snapshot
    (UG : Generator → Generator → Generator)
    (UD : Discriminator → Discriminator → Discriminator)
    (r : StepRand) (real : Tensor2) (gp : Generator) (dp : Discriminator) :
    (trainStep UG UD r real (initState gp dp)).reports
      = [(0,
          (get_generator_loss r.randnG r.mkG gp
            (discPhase UD r real (initState gp dp)).discPs real.length
            z_dim).val / (real.length : ℝ),
          (get_discriminator_loss r.randnD r.mkD gp dp (tInput real)
            real.length z_dim).val / (real.length : ℝ))] ∧
    (trainStep UG UD r real (initState gp dp)).img_list.length = 1 ∧
    (∀ st : TrainState,
      (trainStep UG UD r real st).reports ≠ st.reports ↔
        st.cur_step % display_step = 0) := by
  refine ⟨?_, ?_, ?_⟩
  · rw [trainStep_reports]
    simp [initState]
  · rw [trainStep_img_list_length]
    simp [initState]
  · intro st
    rw [trainStep_reports]
    by_cases hc : st.cur_step % display_step = 0
    · simp only [hc, if_pos]
      constructor
      · intro _
        trivial
      · intro _ h
        have := congrArg List.length h
        simp at this
    · simp [hc]

/-! ### Aggregate length facts over whole runs -/

theorem runEpoch_list_lengths (UG : Generator → Generator → Generator)
    (UD : Discriminator → Discriminator → Discriminator)
    (rs : ℕ → StepRand) (batches : List Tensor2) (st : TrainState) :
    (runEpoch UG UD rs batches st).G_losses.length
        = st.G_losses.length + batches.length ∧
    (runEpoch UG UD rs batches st).D_losses.length
        = st.D_losses.length + batches.length ∧
    (runEpoch UG UD rs batches st).discAfterStep.length
        = st.discAfterStep.length + batches.length ∧
    (runEpoch UG UD rs batches st).genLossDiscArg.length
        = st.genLossDiscArg.length + batches.length := by
  induction batches generalizing st with
  | nil => simp [runEpoch]
  | cons real bs ih =>
    have h := ih (trainStep UG UD (rs st.cur_step) real st)
    have hG := trainStep_G_losses UG UD (rs st.cur_step) real st
    have hD := trainStep_D_losses UG UD (rs st.cur_step) real st
    have hA := trainStep_discAfterStep UG UD (rs st.cur_step) real st
    have hL := trainStep_genLossDiscArg UG UD (rs st.cur_step) real st
    simp only [runEpoch, List.foldl_cons] at h ⊢
    refine ⟨?_, ?_, ?_, ?_⟩
    · rw [h.1, hG]
      simp [List.length_append]
      omega
    · rw [h.2.1, hD]
      simp [List.length_append]
      omega
    · rw [h.2.2.1, hA]
      simp [List.length_append]
      omega
    · rw [h.2.2.2, hL]
      simp [List.length_append]
      omega

theorem runTraining_succ (UG : Generator → Generator → Generator)
    (UD : Discriminator → Discriminator → Discriminator)
    (rs : ℕ → StepRand) (n : ℕ) (batchesOf : ℕ → List Tensor2)
    (st : TrainState) :
    runTraining UG UD rs (n + 1) batchesOf st
      = runEpoch UG UD rs (batchesOf n)
          (runTraining UG UD rs n batchesOf st) := by
  simp [runTraining, List.range_succ]

theorem runTraining_loss_lengths (UG : Generator → Generator → Generator)
    (UD : Discriminator → Discriminator → Discriminator)
    (rs : ℕ → StepRand) (E : ℕ) (batchesOf : ℕ → List Tensor2)
    (st : TrainState) :
    (runTraining UG UD rs E batchesOf st).G_losses.length
        = st.G_losses.length +
          ((List.range E).map (fun e2 => (batchesOf e2).length)).sum ∧
    (runTraining UG UD rs E batchesOf st).D_losses.length
        = st.D_losses.length +
          ((List.range E).map (fun e2 => (batchesOf e2).length)).sum := by
  induction E with
  | zero => simp [runTraining]
  | succ n ih =>
    have hEp := runEpoch_list_lengths UG UD rs (batchesOf n)
      (runTraining UG UD rs n batchesOf st)
    rw [runTraining_succ]
    constructor
    · rw [hEp.1, ih.1, List.range_succ, List.map_append, List.sum_append]
      simp
      omega
    · rw [hEp.2.1, ih.2, List.range_succ, List.map_append, List.sum_append]
      simp
      omega

/-- C10: every training step appends exactly one entry to `G_losses` and
one to `D_losses` (so over a run the lengths equal the total number of
steps executed), the appended value is the current running accumulator —
the previous accumulator plus the batch loss divided by the batch
size — and the accumulator is reset to zero exactly at the
display-interval steps (`cur_step % display_step == 0`), giving the
stored curves their sawtooth shape of partial sums. -/
theorem loss_lists_one_entry_per_step_sawtooth
    (UG : Generator → Generator → Generator)
    (UD : Discriminator → Discriminator → Discriminator)
    (rs : ℕ → StepRand) (E : ℕ) (batchesOf : ℕ → List Tensor2)
    (st : TrainState) (r : StepRand) (real : Tensor2) (s : TrainState) :
    (runTraining UG UD rs E batchesOf st).G_losses.length
        = st.G_losses.length +
          ((List.range E).map (fun e2 => (batchesOf e2).length)).sum ∧
    (runTraining UG UD rs E batchesOf st).D_losses.length
        = st.D_losses.length +
          ((List.range E).map (fun e2 => (batchesOf e2).length)).sum ∧
    (trainStep UG UD r real s).G_losses
      = s.G_losses ++ [s.mean_discriminator_loss +
          (get_discriminator_loss r.randnD r.mkD s.genPs s.discPs
            (tInput real) real.length z_dim).val / (real.length : ℝ)] ∧
    (trainStep UG UD r real s).D_losses
      = s.D_losses ++ [s.mean_generator_loss +
          (get_generator_loss r.randnG r.mkG s.genPs
            (discPhase UD r real s).discPs real.length z_dim).val
            / (real.length : ℝ)] ∧
    (trainStep UG UD r real s).mean_discriminator_loss
      = (if s.cur_step % display_step = 0 then 0
         else s.mean_discriminator_loss +
          (get_discriminator_loss r.randnD r.mkD s.genPs s.discPs
            (tInput real) real.length z_dim).val / (real.length : ℝ)) ∧
    (trainStep UG UD r real s).mean_generator_loss
      = (if s.cur_step % display_step = 0 then 0
         else s.mean_generator_loss +
          (get_generator_loss r.randnG r.mkG s.genPs
            (discPhase UD r real s).discPs real.length z_dim).val
            / (real.length : ℝ)) :=
  ⟨(runTraining_loss_lengths UG UD rs E batchesOf st).1,
   (runTraining_loss_lengths UG UD rs E batchesOf st).2,
   trainStep_G_losses UG UD r real s,
   trainStep_D_losses UG UD r real s,
   trainStep_mean_discriminator_loss UG UD r real s,
   trainStep_mean_generator_loss UG UD r real s⟩

theorem loaderBatchSizes_60000_128 :
    loaderBatchSizes 60000 128 = List.replicate 468 128 ++ [96] := by
  norm_num [loaderBatchSizes]

theorem loaderBatchSizes_60000_128_count :
    (loaderBatchSizes 60000 128).count 128 = 468 := by
  rw [loaderBatchSizes_60000_128, List.count_append,
    List.count_replicate_self]
  decide

/-- Counterexample to C7 as stated: one epoch over 60000 examples at
batch size 128 contains 468 full batches, not 469 — indeed
`60000 // 128 = 468` — with the 469th batch being the 96-example
partial one. -/
theorem full_batch_count_is_468_not_469 :
    (loaderBatchSizes 60000 128).count 128 = 468 ∧
    ¬ ((loaderBatchSizes 60000 128).count 128 = 469) ∧
    60000 / 128 = 468 :=
  ⟨loaderBatchSizes_60000_128_count,
   by rw [loaderBatchSizes_60000_128_count]; omega,
   by norm_num⟩

/-! ### Counting update events in the trace -/

theorem countP_flatMap_general {α β : Type _} (p : β → Bool)
    (f : α → List β) :
    ∀ l : List α, ((l.flatMap f).countP p)
        = (l.map (fun a => (f a).countP p)).sum
  | [] => rfl
  | a :: l => by
    rw [List.flatMap_cons, List.countP_append, List.map_cons,
      List.sum_cons, countP_flatMap_general p f l]

theorem sum_map_const_nat {α : Type _} (c : ℕ) :
    ∀ l : List α, (l.map (fun _ => c)).sum = l.length * c
  | [] => by simp
  | a :: l => by
    rw [List.map_cons, List.sum_cons, sum_map_const_nat c l,
      List.length_cons]
    ring

theorem trainTrace_event_count (E B : ℕ) (ev : Event)
    (h1 : stepEvents.countP (fun e2 => decide (e2 = ev)) = 1) :
    (trainTrace E B).countP (fun x => decide (x.2.2 = ev)) = E * B := by
  have hblock : ∀ e b : ℕ,
      ((stepEvents.map (fun ev2 => (e, b, ev2))).countP
        (fun x => decide (x.2.2 = ev))) = 1 := by
    intro e b
    rw [List.countP_map]
    exact h1
  have hinner : ∀ e : ℕ,
      (((List.range B).flatMap
          (fun b => stepEvents.map (fun ev2 => (e, b, ev2)))).countP
        (fun x => decide (x.2.2 = ev))) = B := by
    intro e
    rw [countP_flatMap_general]
    simp only [hblock]
    rw [sum_map_const_nat, List.length_range, Nat.mul_one]
  rw [trainTrace, countP_flatMap_general]
  simp only [hinner]
  rw [sum_map_const_nat, List.length_range]

/-- Each row of the generator's output has the length of the final
linear layer's output dimension. -/
theorem generator_forward_row_length (p : Generator) (mk : DropMasks)
    (noise : Tensor2) :
    ∀ row ∈ p.forward mk noise,
      row.length = min p.final.weight.length p.final.bias.length := by
  intro row hrow
  simp only [Generator.forward, sigmoidB, List.mem_map] at hrow
  obtain ⟨r, hr, rfl⟩ := hrow
  simp only [linearB, List.mem_map] at hr
  obtain ⟨x, -, rfl⟩ := hr
  simp [linearRow_length]

/-- C7 amended: one epoch over a 60000-example dataset with batch size
128 produces exactly 468 full batches (`60000 // 128 = 468`) plus one
partial batch of 96 examples since the loader keeps the remainder — 469
batches in total; the loop performs one
discriminator-update-then-generator-update pair per batch (469 pairs in
the epoch), and with well-shaped parameters every occurring batch size
gives shape-correct forward passes. -/
theorem epoch_batch_counts_and_update_pairs
    (gp : Generator) (dp : Discriminator) (mk : DropMasks)
    (hw : gp.final.weight.length = img_dim)
    (hb : gp.final.bias.length = img_dim)
    (hdw : dp.final.weight.length = 1)
    (hdb : dp.final.bias.length = 1) :
    loaderBatchSizes 60000 128 = List.replicate 468 128 ++ [96] ∧
    (loaderBatchSizes 60000 128).count 128 = 468 ∧
    (loaderBatchSizes 60000 128).length = 469 ∧
    (trainTrace 1 469).countP
        (fun x => decide (x.2.2 = Event.discOptStep)) = 469 ∧
    (trainTrace 1 469).countP
        (fun x => decide (x.2.2 = Event.genOptStep)) = 469 ∧
    (∀ (UG : Generator → Generator → Generator)
       (UD : Discriminator → Discriminator → Discriminator)
       (rs : ℕ → StepRand) (st : TrainState) (batches : List Tensor2),
      batches.length = 469 →
      (runEpoch UG UD rs batches st).discAfterStep.length
          = st.discAfterStep.length + 469 ∧
      (runEpoch UG UD rs batches st).genLossDiscArg.length
          = st.genLossDiscArg.length + 469) ∧
    (∀ B ∈ loaderBatchSizes 60000 128, ∀ noise : Tensor2,
      noise.length = B →
      (gp.forward mk noise).length = B ∧
      (∀ row ∈ gp.forward mk noise, row.length = img_dim) ∧
      (dp.forward (gp.forward mk noise)).length = B ∧
      (∀ row ∈ dp.forward (gp.forward mk noise), row.length = 1)) := by
  refine ⟨loaderBatchSizes_60000_128, loaderBatchSizes_60000_128_count,
    ?_, ?_, ?_, ?_, ?_⟩
  · rw [loaderBatchSizes_60000_128, List.length_append,
      List.length_replicate]
    decide
  · simpa using trainTrace_event_count 1 469 Event.discOptStep (by decide)
  · simpa using trainTrace_event_count 1 469 Event.genOptStep (by decide)
  · intro UG UD rs st batches hlen
    have h := runEpoch_list_lengths UG UD rs batches st
    rw [hlen] at h
    exact ⟨h.2.2.1, h.2.2.2⟩
  · intro B hB noise hlen
    refine ⟨?_, ?_, ?_, ?_⟩
    · rw [generator_forward_length, hlen]
    · intro row hrow
      have h := generator_forward_row_length gp mk noise row hrow
      rw [hw, hb] at h
      simpa using h
    · rw [discriminator_forward_length, generator_forward_length, hlen]
    · intro row hrow
      have h := discriminator_forward_row_length dp _ row hrow
      rw [hdw, hdb] at h
      simpa using h

/-- Witness for the amended C7 at the concrete networks. -/
theorem epoch_batch_counts_and_update_pairs_witness :
    loaderBatchSizes 60000 128 = List.replicate 468 128 ++ [96] ∧
    (loaderBatchSizes 60000 128).count 128 = 468 ∧
    (loaderBatchSizes 60000 128).length = 469 ∧
    (trainTrace 1 469).countP
        (fun x => decide (x.2.2 = Event.discOptStep)) = 469 ∧
    (trainTrace 1 469).countP
        (fun x => decide (x.2.2 = Event.genOptStep)) = 469 ∧
    (∀ (UG : Generator → Generator → Generator)
       (UD : Discriminator → Discriminator → Discriminator)
       (rs : ℕ → StepRand) (st : TrainState) (batches : List Tensor2),
      batches.length = 469 →
      (runEpoch UG UD rs batches st).discAfterStep.length
          = st.discAfterStep.length + 469 ∧
      (runEpoch UG UD rs batches st).genLossDiscArg.length
          = st.genLossDiscArg.length + 469) ∧
    (∀ B ∈ loaderBatchSizes 60000 128, ∀ noise : Tensor2,
      noise.length = B →
      (genWide.forward mk0 noise).length = B ∧
      (∀ row ∈ genWide.forward mk0 noise, row.length = img_dim) ∧
      (discW.forward (genWide.forward mk0 noise)).length = B ∧
      (∀ row ∈ discW.forward (genWide.forward mk0 noise),
        row.length = 1)) :=
  epoch_batch_counts_and_update_pairs genWide discW mk0
    (by simp [genWide]) (by simp [genWide])
    (by simp [discW, trivLin]) (by simp [discW, trivLin])

end

end GanIntro
